import Mathlib

/-!
Verification development for the `tonic` transport module
(`src/tonic/src/transport/mod.rs`) and the transport-layer design it
documents: channel/server facades, middleware policies (timeout,
concurrency limit, rate limit), security negotiation and the
feature-partitioned public interface.

The only code in the repository snapshot is the module file itself
(feature-gated module declarations and re-exports); those are embedded
directly. The channel, server, middleware and tls internals live in other
files of the crate, so their behavior is modelled from the specification,
with each such definition marked `Modelled from the spec:`.
-/

namespace Tonic

/-! ### Compile-time features and the public interface of the transport module

Embedded from `src/tonic/src/transport/mod.rs`, lines 92-123: the `cfg`
feature gates on module declarations and `pub use` re-exports. -/

/-- The cargo features that gate items in `transport/mod.rs`:
`channel`, `server` and `_tls-any`. -/
structure Features where
  channel : Bool
  server : Bool
  tlsAny : Bool
deriving DecidableEq

/-- The modules declared by `transport/mod.rs` (lines 92-100):
`channel`, `server`, `error`, `service`, `tls`. -/
inductive TransportModule where
  | channelMod
  | serverMod
  | errorMod
  | serviceMod
  | tlsMod
deriving DecidableEq

/-- Whether a module of `transport/mod.rs` is compiled in under a feature
assignment, from the `#[cfg(feature = ...)]` attributes on lines 92-100:
`channel` needs the `channel` feature, `server` the `server` feature,
`tls` the `_tls-any` feature; `error` and `service` are unconditional. -/
def moduleIncluded (f : Features) : TransportModule → Bool
  | .channelMod => f.channel
  | .serverMod => f.server
  | .errorMod => true
  | .serviceMod => true
  | .tlsMod => f.tlsAny

/-- The public re-exports of `transport/mod.rs` (lines 102-123). -/
inductive TransportExport where
  | channelExp
  | endpointExp
  | errorExp
  | serverExp
  | timeoutExpiredExp
  | certificateExp
  | bodyExp
  | uriExp
  | certificateDerExp
  | clientTlsConfigExp
  | serverTlsConfigExp
  | identityExp
deriving DecidableEq

/-- Whether a re-export of `transport/mod.rs` is present under a feature
assignment, read off the `cfg` attributes on lines 102-123:
`Channel`/`Endpoint` need `channel`; `Server` needs `server`;
`Certificate`, `CertificateDer` and `Identity` need `_tls-any`;
`ClientTlsConfig` needs `channel` and `_tls-any`; `ServerTlsConfig` needs
`server` and `_tls-any`; `Error`, `TimeoutExpired`, `Body` and `Uri` are
unconditional. -/
def exported (f : Features) : TransportExport → Bool
  | .channelExp => f.channel
  | .endpointExp => f.channel
  | .errorExp => true
  | .serverExp => f.server
  | .timeoutExpiredExp => true
  | .certificateExp => f.tlsAny
  | .bodyExp => true
  | .uriExp => true
  | .certificateDerExp => f.tlsAny
  | .clientTlsConfigExp => f.channel && f.tlsAny
  | .serverTlsConfigExp => f.server && f.tlsAny
  | .identityExp => f.tlsAny

/-- The path each re-export of `transport/mod.rs` resolves to
(lines 102-123). -/
inductive ExportOrigin where
  | transportChannelMod
  | transportErrorMod
  | transportServerMod
  | crateStatus
  | transportTlsMod
  | hyperCrate
  | rustlsPkiTypes
deriving DecidableEq

/-- Origin of each re-export, from the `pub use` paths on lines 102-123:
in particular `TimeoutExpired` is `pub use crate::status::TimeoutExpired`
(line 110), so it is the same type as `crate::status::TimeoutExpired`. -/
def exportOrigin : TransportExport → ExportOrigin
  | .channelExp => .transportChannelMod
  | .endpointExp => .transportChannelMod
  | .errorExp => .transportErrorMod
  | .serverExp => .transportServerMod
  | .timeoutExpiredExp => .crateStatus
  | .certificateExp => .transportTlsMod
  | .bodyExp => .hyperCrate
  | .uriExp => .hyperCrate
  | .certificateDerExp => .rustlsPkiTypes
  | .clientTlsConfigExp => .transportChannelMod
  | .serverTlsConfigExp => .transportServerMod
  | .identityExp => .transportTlsMod

/-- Which re-exports are documented as deprecated: only `TimeoutExpired`
carries the doc comment "Deprecated. Please use
`crate::status::TimeoutExpired` instead." (line 109). -/
def exportDeprecated : TransportExport → Bool
  | .timeoutExpiredExp => true
  | _ => false

/-! ### Error taxonomy and call outcomes -/

/-- Modelled from the spec: the terminal-error taxonomy of section 7 for
Calls; the code for error classification is not in the repository
snapshot (only `transport/mod.rs` is). -/
inductive TerminalError where
  | configurationError
  | securityError
  | transportUnavailable
  | deadlineExceeded
  | resourceExhausted
deriving DecidableEq

/-- Modelled from the spec: the terminal outcome of a Call, either a
success with an opaque response payload or a classified terminal error. -/
inductive Outcome where
  | success (response : Nat)
  | failure (e : TerminalError)
deriving DecidableEq

/-- Modelled from the spec: the terminal state of the underlying stream
carrying a Call: completed normally, or cancelled (abandoned/reset). -/
inductive StreamState where
  | completed
  | cancelled
deriving DecidableEq

/-! ### Timeout policy (spec section 4.3, first bullet) -/

/-- Modelled from the spec: the timeout policy "attaches a deadline to the
Call if none is set, or tightens an existing one to the caller-specified
maximum, whichever is stricter"; when neither the configuration nor the
Call carries a deadline, a default deadline applies (section 7: "bounded
by configured or default deadlines"). The timeout middleware itself is
not in the repository snapshot. -/
def effectiveDeadline (configTimeout callDeadline : Option Nat) (defaultDeadline : Nat) : Nat :=
  match configTimeout, callDeadline with
  | some a, some b => min a b
  | some a, none => a
  | none, some b => b
  | none, none => defaultDeadline

/-- Modelled from the spec: dispatching one Call under a deadline. The
downstream stage either produces a terminal outcome at some time
(`some (t, o)`) or never produces one (`none`). If the downstream outcome
arrives by the deadline it is forwarded and the stream completes; otherwise
the policy cancels the in-flight Call and reports `deadlineExceeded` at the
deadline. Returns (outcome, stream state, resolution time). The dispatch
pipeline itself is not in the repository snapshot. -/
def dispatchCall (deadline : Nat) (downstream : Option (Nat × Outcome)) :
    Outcome × StreamState × Nat :=
  match downstream with
  | some (t, o) =>
      if t ≤ deadline then (o, StreamState.completed, t)
      else (Outcome.failure TerminalError.deadlineExceeded, StreamState.cancelled, deadline)
  | none => (Outcome.failure TerminalError.deadlineExceeded, StreamState.cancelled, deadline)

/-! ### Concurrency-limit policy (spec section 4.3, second bullet) -/

/-- Modelled from the spec: the state of the concurrency-limit policy —
the Calls currently admitted past the gate (holding a slot) and the FIFO
queue of Calls waiting for a slot. Calls are identified by `Nat` ids. The
concurrency-limit middleware (`concurrency_limit` on the Channel,
`concurrency_limit_per_connection` on the Server) is not in the
repository snapshot. -/
structure ConcState where
  admitted : List Nat
  queue : List Nat
deriving DecidableEq

/-- Events at the concurrency gate: a Call arrives, an admitted Call
releases its slot (terminal outcome), or a queued Call is cancelled. -/
inductive ConcEvent where
  | arrival (c : Nat)
  | release (c : Nat)
  | cancel (c : Nat)
deriving DecidableEq

/-- Modelled from the spec: one step of the concurrency-limit policy with
bound `N`. An arriving Call is admitted while fewer than `N` slots are
held, otherwise appended to the back of the FIFO queue; a release by an
admitted Call frees its slot and, when the queue is nonempty, admits the
queue head (the longest-waiting Call); cancelling a queued Call removes it
from the queue without touching any slot. -/
def concurrencyLimitStep (N : Nat) (s : ConcState) : ConcEvent → ConcState
  | .arrival c =>
      if s.admitted.length < N then ⟨s.admitted ++ [c], s.queue⟩
      else ⟨s.admitted, s.queue ++ [c]⟩
  | .release c =>
      if c ∈ s.admitted then
        match s.queue with
        | [] => ⟨s.admitted.erase c, []⟩
        | q :: qs => ⟨s.admitted.erase c ++ [q], qs⟩
      else s
  | .cancel c => ⟨s.admitted, s.queue.erase c⟩

/-- Modelled from the spec: the concurrency gate run from the empty state
over a sequence of events. -/
def concurrencyLimitRun (N : Nat) (events : List ConcEvent) : ConcState :=
  events.foldl (concurrencyLimitStep N) ⟨[], []⟩

/-! ### Rate-limit policy (spec section 4.3, third bullet) -/

/-- Modelled from the spec: the state of the rate-limit policy — the times
at which Calls were admitted past the gate, and the FIFO queue of Calls
suspended waiting for a permit. The `rate_limit` middleware is not in the
repository snapshot. -/
structure RateState where
  admittedTimes : List Nat
  queue : List Nat
deriving DecidableEq

/-- Number of admissions in the window of length `T` ending at time `t`,
i.e. admission times `u` with `u ≤ t` and `t < u + T`. -/
def windowCount (T t : Nat) (times : List Nat) : Nat :=
  times.countP fun u => decide (u ≤ t ∧ t < u + T)

/-- Number of admissions in the half-open window `[s0, s0 + T)`. -/
def rollingWindowCount (T s0 : Nat) (times : List Nat) : Nat :=
  times.countP fun u => decide (s0 ≤ u ∧ u < s0 + T)

/-- Modelled from the spec: permits currently available at the gate —
the bucket capacity `p` minus the admissions still inside the current
window; never more than one bucket's capacity. -/
def availablePermits (p T t : Nat) (s : RateState) : Nat :=
  p - windowCount T t s.admittedTimes

/-- Modelled from the spec: admit up to `k` Calls from the front of the
FIFO queue at time `t`, recording an admission time for each. -/
def admitFromQueue (t : Nat) : Nat → RateState → RateState
  | 0, s => s
  | k + 1, s =>
      match s.queue with
      | [] => s
      | _ :: rest => admitFromQueue t k ⟨t :: s.admittedTimes, rest⟩

/-- Modelled from the spec: one time step of the rate-limit policy with
`p` permits per period `T`. The Calls arriving at time `t` join the back
of the FIFO queue; then as many queued Calls are admitted as there are
permits left in the window ending at `t`. A Call beyond the instantaneous
rate stays suspended in the queue. -/
def rateLimitStep (p T t : Nat) (arr : List Nat) (s : RateState) : RateState :=
  admitFromQueue t (p - windowCount T t s.admittedTimes) ⟨s.admittedTimes, s.queue ++ arr⟩

/-- Modelled from the spec: the rate gate run from the empty state over
discrete times `0..n`, with `arrivals k` the Calls arriving at time `k`. -/
def rateLimitRun (p T : Nat) (arrivals : Nat → List Nat) : Nat → RateState
  | 0 => rateLimitStep p T 0 (arrivals 0) ⟨[], []⟩
  | n + 1 => rateLimitStep p T (n + 1) (arrivals (n + 1)) (rateLimitRun p T arrivals n)

/-! ### Cancellation of queued/suspended Calls (spec section 5) -/

/-- Modelled from the spec: the joint state a cancellation acts on — the
concurrency gate, the rate gate, and the streams that have been signalled
to reset. The cancellation plumbing is not in the repository snapshot. -/
structure CancelEffect where
  conc : ConcState
  rate : RateState
  resetStreams : List Nat
deriving DecidableEq

/-- Modelled from the spec: cancelling Call `c` while it is queued at the
concurrency gate or suspended at the rate gate removes it from both
queues without consuming or releasing any slot or permit, and signals the
underlying stream of `c` to reset. -/
def cancelQueuedCall (cE : CancelEffect) (c : Nat) : CancelEffect :=
  ⟨⟨cE.conc.admitted, cE.conc.queue.erase c⟩,
   ⟨cE.rate.admittedTimes, cE.rate.queue.erase c⟩,
   c :: cE.resetStreams⟩

/-! ### Middleware composition (spec section 4.3, closing paragraph) -/

/-- Modelled from the spec: a policy's decision on a Call — forward it now
(`pass`), forward it later (`hold`), or reject it. -/
inductive Decision where
  | pass
  | hold
  | reject
deriving DecidableEq

/-- Modelled from the spec: one gate of the middleware chain together with
its parameters and private state: a rate gate, a concurrency gate or a
timeout gate. -/
inductive GateEntry where
  | rateG (p T t : Nat) (s : RateState)
  | concG (N : Nat) (s : ConcState)
  | timeoutG (d : Nat)
deriving DecidableEq

/-- Modelled from the spec: how one gate treats one Call. The rate gate
passes while the window has a permit and otherwise holds the Call in its
queue; the concurrency gate passes while a slot is free and otherwise
holds the Call in its queue; the timeout gate always passes (it enforces
the deadline downstream, see `dispatchCall`). -/
def gateStep (g : GateEntry) (c : Nat) : Decision × GateEntry :=
  match g with
  | .rateG p T t s =>
      if windowCount T t s.admittedTimes < p then
        (Decision.pass, .rateG p T t ⟨t :: s.admittedTimes, s.queue⟩)
      else
        (Decision.hold, .rateG p T t ⟨s.admittedTimes, s.queue ++ [c]⟩)
  | .concG N s =>
      if s.admitted.length < N then
        (Decision.pass, .concG N ⟨s.admitted ++ [c], s.queue⟩)
      else
        (Decision.hold, .concG N ⟨s.admitted, s.queue ++ [c]⟩)
  | .timeoutG d => (Decision.pass, .timeoutG d)

/-- Modelled from the spec: a Call traversing an ordered, caller-configured
chain of gates. The Call reaches an inner gate only when every outer gate
passed it; as soon as a gate holds or rejects the Call, the inner gates
are not consulted and their states are untouched. -/
def chainStep : List GateEntry → Nat → Decision × List GateEntry
  | [], _ => (Decision.pass, [])
  | g :: rest, c =>
      match gateStep g c with
      | (Decision.pass, g1) =>
          let r := chainStep rest c
          (r.1, g1 :: r.2)
      | (d, g1) => (d, g1 :: rest)

/-- Modelled from the spec: the natural composition of the middleware
chain — rate limit (admission gate), then concurrency limit (resource
gate), then timeout (deadline enforcement), then dispatch. -/
def naturalChain (p T t N d : Nat) (rs : RateState) (cs : ConcState) : List GateEntry :=
  [GateEntry.rateG p T t rs, GateEntry.concG N cs, GateEntry.timeoutG d]

/-! ### Security negotiation (spec sections 4.1 and 4.5) -/

/-- Modelled from the spec: the facts a handshake run establishes about
the peer — whether the certificate chain is trusted, whether the verified
identity matches the expected domain name, and whether the peer completed
the handshake (rather than aborting mid-way). The tls module is gated out
of the repository snapshot. -/
structure HandshakeInput where
  chainTrusted : Bool
  domainMatches : Bool
  peerCompleted : Bool
deriving DecidableEq

/-- Modelled from the spec: the outcome of security negotiation — a
secured session, or a terminal failure. -/
inductive HandshakeResult where
  | secured (sessionKey : Nat)
  | failed (e : TerminalError)
deriving DecidableEq

/-- Modelled from the spec: the Security Negotiator verifies the chain and
the expected domain and requires the peer to complete the handshake;
any identity-verification failure or mid-handshake abort yields
`securityError`, never a partial security state. -/
def negotiate (h : HandshakeInput) : HandshakeResult :=
  if h.chainTrusted && h.domainMatches && h.peerCompleted then
    HandshakeResult.secured 0
  else
    HandshakeResult.failed TerminalError.securityError

/-- Modelled from the spec: client-side Connection states
`Connecting → Ready → (Degraded) → Closed` (section 3). -/
inductive ConnectionState where
  | connecting
  | ready
  | degraded
  | closed
deriving DecidableEq

/-- Modelled from the spec: server-side per-connection states
`Negotiating → Serving` with failure closing the connection
(section 4.5). -/
inductive ServerConnState where
  | negotiating
  | serving
  | closedConn
deriving DecidableEq

/-- Modelled from the spec: a client Connection is promoted to `ready`
only on handshake success; a handshake failure is fatal to the Connection,
which is closed. -/
def connectionAfterHandshake (h : HandshakeInput) : ConnectionState :=
  match negotiate h with
  | HandshakeResult.secured _ => ConnectionState.ready
  | HandshakeResult.failed _ => ConnectionState.closed

/-- Modelled from the spec: a server connection reaches `serving` only on
handshake success; a handshake failure closes that connection only. -/
def serverConnAfterHandshake (h : HandshakeInput) : ServerConnState :=
  match negotiate h with
  | HandshakeResult.secured _ => ServerConnState.serving
  | HandshakeResult.failed _ => ServerConnState.closedConn

/-! ### Channel construction (spec section 4.4) -/

/-- Modelled from the spec: the configuration `connect` validates — whether
the TLS settings and the endpoint settings are valid, and whether an eager
initial connection attempt is configured. The channel module is gated out
of the repository snapshot. -/
structure ChannelConfig where
  tlsValid : Bool
  endpointValid : Bool
  eagerConnect : Bool
deriving DecidableEq

/-- Modelled from the spec: the two ways `connect` fails (section 4.4):
`configurationError` on invalid TLS/endpoint settings, `connectError` when
a configured eager initial connection attempt cannot be established. -/
inductive ConnectFailure where
  | configurationError
  | connectError
deriving DecidableEq

/-- Result of `connect`: a Channel handle or a failure. -/
inductive ConnectResult where
  | ok (channelHandle : Nat)
  | err (e : ConnectFailure)
deriving DecidableEq

/-- Modelled from the spec: `connect(configuration) → Channel` — fails with
`configurationError` on invalid TLS or endpoint settings; fails with
`connectError` if an eager initial connection attempt is configured and
the endpoint cannot be reached; otherwise returns a Channel. -/
def connect (cfg : ChannelConfig) (endpointReachable : Bool) : ConnectResult :=
  if !(cfg.tlsValid && cfg.endpointValid) then
    ConnectResult.err ConnectFailure.configurationError
  else if cfg.eagerConnect && !endpointReachable then
    ConnectResult.err ConnectFailure.connectError
  else
    ConnectResult.ok 0

/-! ### Helper lemmas -/

/-- One step of the concurrency gate preserves the slot bound. -/
lemma concurrencyLimitStep_admitted_le (N : Nat) (s : ConcState) (e : ConcEvent)
    (h : s.admitted.length ≤ N) :
    (concurrencyLimitStep N s e).admitted.length ≤ N := by
  obtain ⟨adm, qu⟩ := s
  replace h : adm.length ≤ N := h
  cases e with
  | arrival c =>
      by_cases hlt : adm.length < N
      · simp only [concurrencyLimitStep, if_pos hlt, List.length_append, List.length_cons,
          List.length_nil]
        omega
      · simp only [concurrencyLimitStep, if_neg hlt]
        exact h
  | release c =>
      by_cases hmem : c ∈ adm
      · have hlen := List.length_erase_of_mem hmem
        have hpos : 0 < adm.length := List.length_pos.mpr (List.ne_nil_of_mem hmem)
        cases qu with
        | nil =>
            simp only [concurrencyLimitStep, if_pos hmem]
            simp only [hlen]
            omega
        | cons q qs =>
            simp only [concurrencyLimitStep, if_pos hmem, List.length_append, hlen,
              List.length_cons, List.length_nil]
            omega
      · simp only [concurrencyLimitStep, if_neg hmem]
        exact h
  | cancel c =>
      simp only [concurrencyLimitStep]
      exact h

/-- The concurrency gate run from any state within the bound stays within
the bound. -/
lemma concurrencyLimitFold_admitted_le (N : Nat) (events : List ConcEvent) (s : ConcState)
    (h : s.admitted.length ≤ N) :
    (events.foldl (concurrencyLimitStep N) s).admitted.length ≤ N := by
  induction events generalizing s with
  | nil => exact h
  | cons e rest ih => exact ih _ (concurrencyLimitStep_admitted_le N s e h)

/-- Appending one more copy in front of a cons. -/
lemma replicate_succ_append (m a : Nat) (l : List Nat) :
    List.replicate (m + 1) a ++ l = List.replicate m a ++ a :: l := by
  induction m with
  | zero => rfl
  | succ m ih =>
      rw [List.replicate_succ, List.cons_append, ih, List.replicate_succ, List.cons_append]

/-- `admitFromQueue` admits exactly `min k (queue length)` Calls, recording
the time `t` for each, and drops them from the front of the queue. -/
lemma admitFromQueue_eq (t : Nat) : ∀ (k : Nat) (s : RateState),
    admitFromQueue t k s =
      ⟨List.replicate (min k s.queue.length) t ++ s.admittedTimes,
       s.queue.drop (min k s.queue.length)⟩ := by
  intro k
  induction k with
  | zero =>
      intro s
      simp [admitFromQueue]
  | succ k ih =>
      intro s
      obtain ⟨times, qu⟩ := s
      cases qu with
      | nil => simp [admitFromQueue]
      | cons c rest =>
          show admitFromQueue t k ⟨t :: times, rest⟩ = _
          rw [ih]
          have hmin : min (k + 1) (rest.length + 1) = min k rest.length + 1 :=
            Nat.succ_min_succ k rest.length
          simp only [List.length_cons, hmin, List.drop_succ_cons, ← replicate_succ_append]

/-- Explicit form of one rate-limit step. -/
lemma rateLimitStep_eq (p T t : Nat) (arr : List Nat) (s : RateState) :
    rateLimitStep p T t arr s =
      ⟨List.replicate (min (p - windowCount T t s.admittedTimes) (s.queue ++ arr).length) t
         ++ s.admittedTimes,
       (s.queue ++ arr).drop
         (min (p - windowCount T t s.admittedTimes) (s.queue ++ arr).length)⟩ := by
  unfold rateLimitStep
  exact admitFromQueue_eq t _ _

/-- Count of a predicate over a constant list. -/
lemma countP_replicate (f : Nat → Bool) (m a : Nat) :
    (List.replicate m a).countP f = if f a then m else 0 := by
  induction m with
  | zero => simp
  | succ m ih =>
      rw [List.replicate_succ, List.countP_cons, ih]
      by_cases h : f a = true
      · simp [h]
      · simp [h]

/-- Admissions at the window's right edge all land inside the window. -/
lemma windowCount_replicate_append (T t m : Nat) (ts : List Nat) (hT : 0 < T) :
    windowCount T t (List.replicate m t ++ ts) = m + windowCount T t ts := by
  unfold windowCount
  rw [List.countP_append, countP_replicate]
  have hc : decide (t ≤ t ∧ t < t + T) = true := by
    simp only [decide_eq_true_eq]
    exact ⟨Nat.le_refl t, Nat.lt_add_of_pos_right hT⟩
  rw [hc]
  simp [Nat.add_comm]

/-- Rolling-window count after adding `m` admissions at one time. -/
lemma rollingWindowCount_replicate_append (T s0 m a : Nat) (ts : List Nat) :
    rollingWindowCount T s0 (List.replicate m a ++ ts) =
      (if s0 ≤ a ∧ a < s0 + T then m else 0) + rollingWindowCount T s0 ts := by
  unfold rollingWindowCount
  rw [List.countP_append, countP_replicate]
  by_cases h : s0 ≤ a ∧ a < s0 + T
  · simp [h]
  · simp [h]

/-- Sliding the window right cannot increase the count over old times. -/
lemma windowCount_shift_le (T n : Nat) (ts : List Nat) (hb : ∀ u ∈ ts, u ≤ n) :
    windowCount T (n + 1) ts ≤ windowCount T n ts := by
  unfold windowCount
  apply List.countP_mono_left
  intro u hu hdec
  simp only [decide_eq_true_eq] at hdec ⊢
  have hun := hb u hu
  omega

/-- Inside a window that reaches past time `t`, old admissions are also
inside the backward window ending at `t`. -/
lemma rollingWindowCount_le_windowCount (T s0 t : Nat) (ts : List Nat)
    (hb : ∀ u ∈ ts, u ≤ t) (h2 : t < s0 + T) :
    rollingWindowCount T s0 ts ≤ windowCount T t ts := by
  unfold rollingWindowCount windowCount
  apply List.countP_mono_left
  intro u hu hdec
  simp only [decide_eq_true_eq] at hdec ⊢
  have hun := hb u hu
  omega

/-- Invariants of one rate-limit step: admission times stay bounded by the
current time, the backward window ending now holds at most `p` admissions,
and every rolling window holds at most `p` admissions. -/
lemma rateLimitStep_invariant (p T t : Nat) (hT : 0 < T) (arr : List Nat) (s : RateState)
    (hb : ∀ u ∈ s.admittedTimes, u ≤ t)
    (hw : windowCount T t s.admittedTimes ≤ p)
    (hr : ∀ s0, rollingWindowCount T s0 s.admittedTimes ≤ p) :
    (∀ u ∈ (rateLimitStep p T t arr s).admittedTimes, u ≤ t)
    ∧ windowCount T t (rateLimitStep p T t arr s).admittedTimes ≤ p
    ∧ ∀ s0, rollingWindowCount T s0 (rateLimitStep p T t arr s).admittedTimes ≤ p := by
  rw [rateLimitStep_eq]
  have hm : min (p - windowCount T t s.admittedTimes) (s.queue ++ arr).length
      ≤ p - windowCount T t s.admittedTimes := Nat.min_le_left _ _
  refine ⟨?_, ?_, ?_⟩
  · intro u hu
    simp only [List.mem_append, List.mem_replicate] at hu
    cases hu with
    | inl h1 => omega
    | inr h1 => exact hb u h1
  · rw [windowCount_replicate_append T t _ _ hT]
    omega
  · intro s0
    rw [rollingWindowCount_replicate_append]
    by_cases hin : s0 ≤ t ∧ t < s0 + T
    · have hle := rollingWindowCount_le_windowCount T s0 t s.admittedTimes hb hin.2
      rw [if_pos hin]
      omega
    · rw [if_neg hin]
      simpa using hr s0

/-- Invariants of the rate-limit run: admission times are bounded by the
current time and every rolling window of length `T` holds at most `p`
admissions. -/
lemma rateLimitRun_invariant (p T : Nat) (hT : 0 < T) (arrivals : Nat → List Nat) (n : Nat) :
    (∀ u ∈ (rateLimitRun p T arrivals n).admittedTimes, u ≤ n)
    ∧ windowCount T n (rateLimitRun p T arrivals n).admittedTimes ≤ p
    ∧ ∀ s0, rollingWindowCount T s0 (rateLimitRun p T arrivals n).admittedTimes ≤ p := by
  induction n with
  | zero =>
      exact rateLimitStep_invariant p T 0 hT (arrivals 0) ⟨[], []⟩
        (by intro u hu; simp at hu)
        (by simp [windowCount])
        (by intro s0; simp [rollingWindowCount])
  | succ n ih =>
      obtain ⟨hb, hw, hr⟩ := ih
      have hb1 : ∀ u ∈ (rateLimitRun p T arrivals n).admittedTimes, u ≤ n + 1 :=
        fun u hu => Nat.le_succ_of_le (hb u hu)
      have hw1 : windowCount T (n + 1) (rateLimitRun p T arrivals n).admittedTimes ≤ p :=
        Nat.le_trans (windowCount_shift_le T n _ hb) hw
      exact rateLimitStep_invariant p T (n + 1) hT (arrivals (n + 1)) _ hb1 hw1 hr

/-- Modelled from the spec: the representation prescribed by the design
note of section 9 — optional subsystems as capability references selected
at construction time, e.g. an optional Security Negotiator reference,
`none` when disabled. Stated for comparison with `moduleIncluded`, the
code's compile-time feature gating. -/
structure SpecCapabilitySelection where
  negotiator : Option HandshakeInput
  balancerEndpoints : Option (List Nat)
  serverRole : Bool
deriving DecidableEq

/-- In the spec's prescribed representation, the security subsystem's
presence is a construction-time value of the assembled object. -/
def specSubsystemPresent (a : SpecCapabilitySelection) : Bool :=
  a.negotiator.isSome

/-! ### Claim theorems -/

/-- Claim C1: every Call issued through the Channel resolves to exactly one
terminal outcome — success with a response or a classified terminal error
from the section-7 taxonomy — and its resolution time is bounded by the
effective (configured, caller-set or default) deadline, so no Call is
silently dropped or hangs indefinitely. -/
theorem call_single_terminal_outcome (configTimeout callDeadline : Option Nat)
    (defaultDeadline : Nat) (downstream : Option (Nat × Outcome)) :
    ((∃ r, (dispatchCall (effectiveDeadline configTimeout callDeadline defaultDeadline)
        downstream).1 = Outcome.success r)
      ∨ (∃ e, (dispatchCall (effectiveDeadline configTimeout callDeadline defaultDeadline)
        downstream).1 = Outcome.failure e))
    ∧ (dispatchCall (effectiveDeadline configTimeout callDeadline defaultDeadline)
        downstream).2.2 ≤ effectiveDeadline configTimeout callDeadline defaultDeadline := by
  cases downstream with
  | none => exact ⟨Or.inr ⟨TerminalError.deadlineExceeded, rfl⟩, Nat.le_refl _⟩
  | some pr =>
      obtain ⟨tt, o⟩ := pr
      by_cases h : tt ≤ effectiveDeadline configTimeout callDeadline defaultDeadline
      · constructor
        · cases o with
          | success r => exact Or.inl ⟨r, by simp [dispatchCall, h]⟩
          | failure e => exact Or.inr ⟨e, by simp [dispatchCall, h]⟩
        · simp [dispatchCall, h]
      · exact ⟨Or.inr ⟨TerminalError.deadlineExceeded, by simp [dispatchCall, h]⟩,
          by simp [dispatchCall, h]⟩

/-- Claim C2: the concurrency gate never holds more than `N` Calls admitted
at once; an arrival when all `N` slots are held is appended to the back of
the FIFO queue; and a slot release admits the queue head — the
longest-waiting queued Call — first. -/
theorem concurrency_limit_spec (N : Nat) (events : List ConcEvent) (s : ConcState)
    (c q : Nat) (qs : List Nat)
    (hfull : s.admitted.length = N) (hmem : c ∈ s.admitted) (hq : s.queue = q :: qs) :
    (concurrencyLimitRun N events).admitted.length ≤ N
    ∧ concurrencyLimitStep N s (ConcEvent.arrival c) = ⟨s.admitted, s.queue ++ [c]⟩
    ∧ concurrencyLimitStep N s (ConcEvent.release c) = ⟨s.admitted.erase c ++ [q], qs⟩ := by
  refine ⟨concurrencyLimitFold_admitted_le N events ⟨[], []⟩ (by simp), ?_, ?_⟩
  · simp [concurrencyLimitStep, hfull]
  · obtain ⟨adm, qu⟩ := s
    replace hq : qu = q :: qs := hq
    replace hmem : c ∈ adm := hmem
    subst hq
    simp [concurrencyLimitStep, hmem]

/-- Witness for C2 at `N = 1`: two arrivals and a release stay within one
slot; on the full state with `admitted = [5]`, `queue = [7]`, an arrival
queues at the back and releasing Call 5 admits the queued Call 7. -/
theorem concurrency_limit_spec_witness :
    (concurrencyLimitRun 1
        [ConcEvent.arrival 1, ConcEvent.arrival 2, ConcEvent.release 1]).admitted.length ≤ 1
    ∧ concurrencyLimitStep 1 ⟨[5], [7]⟩ (ConcEvent.arrival 5) = ⟨[5], [7] ++ [5]⟩
    ∧ concurrencyLimitStep 1 ⟨[5], [7]⟩ (ConcEvent.release 5) = ⟨[5].erase 5 ++ [7], []⟩ :=
  concurrency_limit_spec 1 [ConcEvent.arrival 1, ConcEvent.arrival 2, ConcEvent.release 1]
    ⟨[5], [7]⟩ 5 7 [] (by decide) (by decide) rfl

/-- Claim C3: every rolling window of length `T` contains at most `p`
admissions past the rate gate; an arrival while the window is full stays
suspended in the queue; and the available permits never exceed one
bucket's capacity `p`. -/
theorem rate_limit_spec (p T : Nat) (arrivals : Nat → List Nat) (n s0 t c : Nat)
    (s : RateState) (hT : 0 < T) (hfull : p ≤ windowCount T t s.admittedTimes) :
    rollingWindowCount T s0 (rateLimitRun p T arrivals n).admittedTimes ≤ p
    ∧ rateLimitStep p T t [c] s = ⟨s.admittedTimes, s.queue ++ [c]⟩
    ∧ availablePermits p T t s ≤ p := by
  refine ⟨(rateLimitRun_invariant p T hT arrivals n).2.2 s0, ?_, Nat.sub_le _ _⟩
  rw [rateLimitStep_eq]
  have h0 : p - windowCount T t s.admittedTimes = 0 := Nat.sub_eq_zero_of_le hfull
  simp [h0]

/-- Witness for C3 at one permit per two ticks: the run admitting one Call
per tick keeps every rolling window at one admission; with the window full
at time 5 (`admittedTimes = [5]`), an arriving Call 9 stays queued. -/
theorem rate_limit_spec_witness :
    rollingWindowCount 2 0 (rateLimitRun 1 2 (fun k => [k]) 2).admittedTimes ≤ 1
    ∧ rateLimitStep 1 2 5 [9] ⟨[5], []⟩ = ⟨[5], [] ++ [9]⟩
    ∧ availablePermits 1 2 5 ⟨[5], []⟩ ≤ 1 :=
  rate_limit_spec 1 2 (fun k => [k]) 2 0 5 9 ⟨[5], []⟩ (by decide) (by decide)

/-- Claim C4: when the downstream stage produces no terminal outcome by the
deadline — no matter how much work it completed or whether it ever
completes — the timeout policy reports `deadlineExceeded` at the deadline
and the underlying stream transitions to cancelled. -/
theorem timeout_cancels_late_call (d : Nat) (downstream : Option (Nat × Outcome))
    (h : ∀ t o, downstream = some (t, o) → d < t) :
    dispatchCall d downstream
      = (Outcome.failure TerminalError.deadlineExceeded, StreamState.cancelled, d) := by
  cases downstream with
  | none => rfl
  | some pr =>
      obtain ⟨tt, o⟩ := pr
      have hlt := h tt o rfl
      simp [dispatchCall, Nat.not_le.mpr hlt]

/-- Witness for C4: a downstream outcome arriving at time 5 under deadline
1 is replaced by `deadlineExceeded` with the stream cancelled. -/
theorem timeout_cancels_late_call_witness :
    dispatchCall 1 (some (5, Outcome.success 0))
      = (Outcome.failure TerminalError.deadlineExceeded, StreamState.cancelled, 1) :=
  timeout_cancels_late_call 1 (some (5, Outcome.success 0))
    (by
      intro t o ho
      simp only [Option.some.injEq, Prod.mk.injEq] at ho
      obtain ⟨h5, _⟩ := ho
      omega)

/-- Claim C5: a handshake failing identity verification (wrong domain or
untrusted chain) yields `securityError`, is fatal to that Connection — no
partial or degraded security state — and the Connection is never promoted
to `ready` (client) or `serving` (server). -/
theorem handshake_failure_fatal (h : HandshakeInput)
    (hbad : h.domainMatches = false ∨ h.chainTrusted = false) :
    negotiate h = HandshakeResult.failed TerminalError.securityError
    ∧ connectionAfterHandshake h = ConnectionState.closed
    ∧ connectionAfterHandshake h ≠ ConnectionState.ready
    ∧ connectionAfterHandshake h ≠ ConnectionState.degraded
    ∧ serverConnAfterHandshake h = ServerConnState.closedConn
    ∧ serverConnAfterHandshake h ≠ ServerConnState.serving := by
  obtain ⟨ct, dm, pc⟩ := h
  have hneg : negotiate ⟨ct, dm, pc⟩ = HandshakeResult.failed TerminalError.securityError := by
    cases hbad with
    | inl h1 =>
        replace h1 : dm = false := h1
        subst h1
        simp [negotiate]
    | inr h1 =>
        replace h1 : ct = false := h1
        subst h1
        simp [negotiate]
  refine ⟨hneg, ?_, ?_, ?_, ?_, ?_⟩ <;>
    simp [connectionAfterHandshake, serverConnAfterHandshake, hneg]

/-- Witness for C5: a handshake with a trusted chain but a mismatched
domain name fails with `securityError` and the connection closes. -/
theorem handshake_failure_fatal_witness :
    negotiate ⟨true, false, true⟩ = HandshakeResult.failed TerminalError.securityError
    ∧ connectionAfterHandshake ⟨true, false, true⟩ = ConnectionState.closed
    ∧ connectionAfterHandshake ⟨true, false, true⟩ ≠ ConnectionState.ready
    ∧ connectionAfterHandshake ⟨true, false, true⟩ ≠ ConnectionState.degraded
    ∧ serverConnAfterHandshake ⟨true, false, true⟩ = ServerConnState.closedConn
    ∧ serverConnAfterHandshake ⟨true, false, true⟩ ≠ ServerConnState.serving :=
  handshake_failure_fatal ⟨true, false, true⟩ (Or.inl rfl)

/-- Claim C6: `connect` fails with `configurationError` whenever the TLS or
endpoint settings are invalid, fails with `connectError` whenever an eager
initial connection attempt is configured and the endpoint is unreachable,
and otherwise returns a Channel. -/
theorem connect_error_classification (cfg1 cfg2 cfg3 : ChannelConfig) (r1 r2 r3 : Bool)
    (h1 : cfg1.tlsValid = false ∨ cfg1.endpointValid = false)
    (h2t : cfg2.tlsValid = true) (h2e : cfg2.endpointValid = true)
    (h2g : cfg2.eagerConnect = true) (h2r : r2 = false)
    (h3t : cfg3.tlsValid = true) (h3e : cfg3.endpointValid = true)
    (h3 : cfg3.eagerConnect = true → r3 = true) :
    connect cfg1 r1 = ConnectResult.err ConnectFailure.configurationError
    ∧ connect cfg2 r2 = ConnectResult.err ConnectFailure.connectError
    ∧ connect cfg3 r3 = ConnectResult.ok 0 := by
  refine ⟨?_, ?_, ?_⟩
  · obtain ⟨a, b, e⟩ := cfg1
    cases h1 with
    | inl hx =>
        replace hx : a = false := hx
        subst hx
        simp [connect]
    | inr hx =>
        replace hx : b = false := hx
        subst hx
        simp [connect]
  · obtain ⟨a, b, e⟩ := cfg2
    replace h2t : a = true := h2t
    replace h2e : b = true := h2e
    replace h2g : e = true := h2g
    subst h2t; subst h2e; subst h2g; subst h2r
    simp [connect]
  · obtain ⟨a, b, e⟩ := cfg3
    replace h3t : a = true := h3t
    replace h3e : b = true := h3e
    replace h3 : e = true → r3 = true := h3
    subst h3t; subst h3e
    cases e with
    | false => simp [connect]
    | true =>
        have hr := h3 rfl
        subst hr
        simp [connect]

/-- Witness for C6: invalid TLS settings give `configurationError`; a
failing eager attempt gives `connectError`; a lazy valid configuration
gives a Channel. -/
theorem connect_error_classification_witness :
    connect ⟨false, true, false⟩ true = ConnectResult.err ConnectFailure.configurationError
    ∧ connect ⟨true, true, true⟩ false = ConnectResult.err ConnectFailure.connectError
    ∧ connect ⟨true, true, false⟩ false = ConnectResult.ok 0 :=
  connect_error_classification ⟨false, true, false⟩ ⟨true, true, true⟩ ⟨true, true, false⟩
    true false false (Or.inl rfl) rfl rfl rfl rfl rfl rfl (by decide)

/-- Claim C7: cancelling a Call queued at the concurrency gate and
suspended at the rate gate removes it from both queues without consuming
or leaking any slot or permit, signals its stream to reset, and leaves the
next-queued Call first in line, so a subsequent slot release admits it. -/
theorem cancellation_no_leak (cE : CancelEffect) (N c q a : Nat) (qs : List Nat)
    (hq : cE.conc.queue = c :: q :: qs) (ha : a ∈ cE.conc.admitted) :
    (cancelQueuedCall cE c).conc.admitted = cE.conc.admitted
    ∧ (cancelQueuedCall cE c).rate.admittedTimes = cE.rate.admittedTimes
    ∧ c ∈ (cancelQueuedCall cE c).resetStreams
    ∧ (cancelQueuedCall cE c).conc.queue = q :: qs
    ∧ concurrencyLimitStep N (cancelQueuedCall cE c).conc (ConcEvent.release a)
        = ⟨cE.conc.admitted.erase a ++ [q], qs⟩ := by
  have hq2 : (cancelQueuedCall cE c).conc.queue = q :: qs := by
    show cE.conc.queue.erase c = q :: qs
    rw [hq, List.erase_cons_head]
  refine ⟨rfl, rfl, List.mem_cons_self c cE.resetStreams, hq2, ?_⟩
  show concurrencyLimitStep N ⟨cE.conc.admitted, cE.conc.queue.erase c⟩ (ConcEvent.release a) = _
  rw [hq, List.erase_cons_head]
  simp [concurrencyLimitStep, ha]

/-- Witness for C7: with Call 3 admitted and Calls 8, 9 queued, cancelling
8 keeps the slot count and permits intact, resets stream 8, and the next
release admits 9. -/
theorem cancellation_no_leak_witness :
    (cancelQueuedCall ⟨⟨[3], [8, 9]⟩, ⟨[0], [8]⟩, []⟩ 8).conc.admitted = [3]
    ∧ (cancelQueuedCall ⟨⟨[3], [8, 9]⟩, ⟨[0], [8]⟩, []⟩ 8).rate.admittedTimes = [0]
    ∧ 8 ∈ (cancelQueuedCall ⟨⟨[3], [8, 9]⟩, ⟨[0], [8]⟩, []⟩ 8).resetStreams
    ∧ (cancelQueuedCall ⟨⟨[3], [8, 9]⟩, ⟨[0], [8]⟩, []⟩ 8).conc.queue = [9]
    ∧ concurrencyLimitStep 1 (cancelQueuedCall ⟨⟨[3], [8, 9]⟩, ⟨[0], [8]⟩, []⟩ 8).conc
        (ConcEvent.release 3) = ⟨[3].erase 3 ++ [9], []⟩ :=
  cancellation_no_leak ⟨⟨[3], [8, 9]⟩, ⟨[0], [8]⟩, []⟩ 1 8 9 3 [] rfl (by decide)

/-- Claim C8: the middleware chain is an ordered, caller-configured list of
gates; a Call held or rejected by an outer gate is never forwarded to the
inner gates, whose states — and hence slots and permits — are untouched;
in the natural composition rate-limit then concurrency-limit then timeout,
a Call delayed at the full rate gate consumes no concurrency slot. -/
theorem middleware_ordering_spec (g g1 : GateEntry) (rest : List GateEntry)
    (c c2 : Nat) (dec : Decision) (p T t N dl : Nat) (rs : RateState) (cs : ConcState)
    (hg : gateStep g c = (dec, g1)) (hd : dec ≠ Decision.pass)
    (hfull : p ≤ windowCount T t rs.admittedTimes) :
    chainStep (g :: rest) c = (dec, g1 :: rest)
    ∧ chainStep (naturalChain p T t N dl rs cs) c2
        = (Decision.hold, naturalChain p T t N dl ⟨rs.admittedTimes, rs.queue ++ [c2]⟩ cs) := by
  constructor
  · cases dec with
    | pass => exact absurd rfl hd
    | hold => simp [chainStep, hg]
    | reject => simp [chainStep, hg]
  · have hno : ¬ windowCount T t rs.admittedTimes < p := Nat.not_lt.mpr hfull
    simp [chainStep, naturalChain, gateStep, hno]

/-- Witness for C8: a zero-slot concurrency gate holds Call 4 without
consulting inner gates, and in the natural chain with a full rate window a
Call is held at the rate gate with the concurrency state untouched. -/
theorem middleware_ordering_spec_witness :
    chainStep (GateEntry.concG 0 ⟨[], []⟩ :: []) 4
      = (Decision.hold, GateEntry.concG 0 ⟨[], [4]⟩ :: [])
    ∧ chainStep (naturalChain 0 1 0 2 7 ⟨[], []⟩ ⟨[], []⟩) 6
      = (Decision.hold, naturalChain 0 1 0 2 7 ⟨[], [] ++ [6]⟩ ⟨[], []⟩) :=
  middleware_ordering_spec (GateEntry.concG 0 ⟨[], []⟩) (GateEntry.concG 0 ⟨[], [4]⟩) [] 4 6
    Decision.hold 0 1 0 2 7 ⟨[], []⟩ ⟨[], []⟩ (by decide) (by decide) (by decide)

/-- Counterexample to claim C9: in the code, optional subsystems are
compile-time conditional — the security (tls) module and its `Identity`
export exist only under the `_tls-any` feature, so their presence varies
with compile-time features rather than being a construction-time
capability selection. -/
theorem subsystem_selection_counterexample :
    moduleIncluded ⟨true, true, false⟩ TransportModule.tlsMod = false
    ∧ moduleIncluded ⟨true, true, true⟩ TransportModule.tlsMod = true
    ∧ exported ⟨true, true, false⟩ TransportExport.identityExp = false
    ∧ exported ⟨true, true, true⟩ TransportExport.identityExp = true := by decide

/-- Claim C9 as amended: in the transport module the optional subsystems
(security/tls, client channel, server) are compile-time feature-gated
code paths — each module is included exactly when its cargo feature is
enabled — while the capability-interface representation (an optional
negotiator selected at construction) is the spec's prescription for a
re-implementation, not the code's structure. -/
theorem subsystem_feature_gating (f : Features) (a : SpecCapabilitySelection) :
    moduleIncluded f TransportModule.tlsMod = f.tlsAny
    ∧ moduleIncluded f TransportModule.channelMod = f.channel
    ∧ moduleIncluded f TransportModule.serverMod = f.server
    ∧ moduleIncluded f TransportModule.errorMod = true
    ∧ moduleIncluded f TransportModule.serviceMod = true
    ∧ specSubsystemPresent a = a.negotiator.isSome :=
  ⟨rfl, rfl, rfl, rfl, rfl, rfl⟩

/-- Claim C10: the transport module's public interface is
feature-partitioned exactly as the `cfg` attributes state — `Channel` and
`Endpoint` under `channel`, `Server` under `server`, `Certificate`,
`Identity` and `CertificateDer` under `_tls-any`, `ClientTlsConfig` under
`channel` and `_tls-any`, `ServerTlsConfig` under `server` and `_tls-any`;
`Error`, `Body`, `Uri` and `TimeoutExpired` are unconditional; and
`TimeoutExpired` is the deprecated re-export of
`crate::status::TimeoutExpired`. -/
theorem transport_export_partition (f : Features) :
    exported f TransportExport.channelExp = f.channel
    ∧ exported f TransportExport.endpointExp = f.channel
    ∧ exported f TransportExport.serverExp = f.server
    ∧ exported f TransportExport.certificateExp = f.tlsAny
    ∧ exported f TransportExport.identityExp = f.tlsAny
    ∧ exported f TransportExport.certificateDerExp = f.tlsAny
    ∧ exported f TransportExport.clientTlsConfigExp = (f.channel && f.tlsAny)
    ∧ exported f TransportExport.serverTlsConfigExp = (f.server && f.tlsAny)
    ∧ exported f TransportExport.errorExp = true
    ∧ exported f TransportExport.bodyExp = true
    ∧ exported f TransportExport.uriExp = true
    ∧ exported f TransportExport.timeoutExpiredExp = true
    ∧ exportOrigin TransportExport.timeoutExpiredExp = ExportOrigin.crateStatus
    ∧ exportDeprecated TransportExport.timeoutExpiredExp = true :=
  ⟨rfl, rfl, rfl, rfl, rfl, rfl, rfl, rfl, rfl, rfl, rfl, rfl, rfl, rfl⟩

end Tonic
